import Mathlib

/-!
Shallow embedding of `klaxer/rules.py`: the rule-compilation engine that
turns a per-service configuration tree (parsed YAML) into classification,
exclusion, enrichment and routing rule sets, plus the rule evaluation
semantics described by the specification.

Python runtime values coming out of the YAML parser are modelled by the
inductive type `Value`; Python exceptions are modelled by the error type
`Err` threaded through `Except`.  The closures the Python code builds are
modelled as tagged variants capturing exactly the data each closure
captures (`cfg` for the whole-config closures, the list entry for the
per-entry closures), with an `apply` function mirroring each lambda body.
-/

set_option autoImplicit false

namespace Klaxer

/-- A Python value as produced by the YAML parser: `None`, booleans,
integers, strings, lists and string-keyed dicts (modelled as ordered
association lists with unique keys, first match wins on lookup). -/
inductive Value : Type where
  | none : Value
  | bool : Bool → Value
  | int : Int → Value
  | str : String → Value
  | list : List Value → Value
  | dict : List (String × Value) → Value

/-- Python exceptions that the code in `rules.py` can raise:
`ConfigurationError` and `ServiceNotDefinedError` from `klaxer.errors`,
plus the builtin `KeyError`, `TypeError` and `AttributeError`. -/
inductive Err : Type where
  | configurationError : String → Err
  | serviceNotDefinedError : String → Err
  | keyError : String → Err
  | typeError : Err
  | attributeError : Err
deriving DecidableEq, Repr

/-- The alert object: the only attribute the engine touches is `message`. -/
structure Alert : Type where
  message : String
deriving DecidableEq, Repr

/-- Test that `needle` is a prefix of `hay` (over character lists). -/
def isPre : List Char → List Char → Bool
  | [], _ => true
  | _ :: _, [] => false
  | a :: as, b :: bs => a = b && isPre as bs

/-- Python's substring containment `needle in hay` over character lists. -/
def pyInL (needle : List Char) : List Char → Bool
  | [] => isPre needle []
  | b :: bs => isPre needle (b :: bs) || pyInL needle bs

/-- Python's `needle in hay` for strings: substring containment. -/
def pyIn (needle hay : String) : Bool :=
  pyInL needle.toList hay.toList

/-- Model of Python `s.lower()`: lower-case every character of the
string. -/
def lower (s : String) : String :=
  String.mk (s.data.map Char.toLower)

/-- Replace every occurrence of the non-empty pattern `pat` by `rep`,
scanning left to right; `fuel` bounds the recursion and is always called
with at least the haystack's length. -/
def replaceFuel (pat rep : List Char) : Nat → List Char → List Char
  | 0, hay => hay
  | _ + 1, [] => []
  | n + 1, c :: cs =>
    if isPre pat (c :: cs) && !pat.isEmpty then
      rep ++ replaceFuel pat rep n (List.drop (pat.length - 1) cs)
    else c :: replaceFuel pat rep n cs

/-- Replace every occurrence of `pat` by `rep` in `hay`. -/
def replaceAll (hay pat rep : String) : String :=
  String.mk (replaceFuel pat.data rep.data hay.data.length hay.data)

/-- Model of Python `template.format(msg)` for one positional argument:
substitute the message for the positional slots `\x7b0\x7d` and `\x7b\x7d`
of the template. -/
def fmt (template msg : String) : String :=
  replaceAll (replaceAll template "\x7b0\x7d" msg) "\x7b\x7d" msg

/-- A YAML list of plain strings (keyword sets in the configuration). -/
def strList (l : List String) : Value :=
  Value.list (l.map Value.str)

namespace Value

/-- Python subscript `v[k]` with a string key: dict lookup raising
`KeyError` when the key is absent, `TypeError` on non-dicts. -/
def getItem : Value → String → Except Err Value
  | dict d, k =>
    match d.find? (fun p => p.1 == k) with
    | some p => .ok p.2
    | Option.none => .error (.keyError k)
  | _, _ => .error .typeError

/-- Python `v.get(k, default)`: only dicts have `.get`, anything else
raises `AttributeError`. -/
def getD : Value → String → Value → Except Err Value
  | dict d, k, dflt =>
    match d.find? (fun p => p.1 == k) with
    | some p => .ok p.2
    | Option.none => .ok dflt
  | _, _, _ => .error .attributeError

/-- Python membership `k in v` for a string `k`: key membership for dicts,
element equality for lists, substring containment for strings. -/
def containsKey : Value → String → Except Err Bool
  | dict d, k => .ok (d.any (fun p => p.1 == k))
  | list xs, k =>
    .ok (xs.any (fun v => match v with | str s => s == k | _ => false))
  | str s, k => .ok (pyIn k s)
  | _, _ => .error .typeError

/-- Obtaining an iterator of a Python value: lists iterate their elements,
dicts their keys, strings their characters; other values raise
`TypeError`. -/
def iterElems : Value → Except Err (List Value)
  | list xs => .ok xs
  | dict d => .ok (d.map (fun p => str p.1))
  | str s => .ok (s.toList.map (fun c => str (String.singleton c)))
  | _ => .error .typeError

/-- Python truthiness of `v is None` filtering used by the evaluator. -/
def isNone : Value → Bool
  | none => true
  | _ => false

end Value

/-- Python `any(needle in hay for needle in elems)` over already-extracted
iterator elements: short-circuiting, raising `TypeError` when an element
is not a string. -/
def anyIn : List Value → String → Except Err Bool
  | [], _ => .ok false
  | v :: vs, hay =>
    match v with
    | .str s => if pyIn s hay then .ok true else anyIn vs hay
    | _ => .error .typeError

/-- Python `any(needle in hay for needle in v)`. -/
def anyContains (v : Value) (hay : String) : Except Err Bool :=
  match v.iterElems with
  | .error e => .error e
  | .ok elems => anyIn elems hay

/-- The severity enumeration from `klaxer.models`. -/
inductive Severity : Type where
  | critical : Severity
  | warning : Severity
  | ok : Severity
  | unknown : Severity
deriving DecidableEq, Repr

/-- The single classification rule built per service; it captures the
service's whole config mapping `cfg`, as the Python closure does. -/
inductive ClassificationRule : Type where
  | fromCfg : Value → ClassificationRule

/-- The single exclusion rule built per service (when `exclude` is
present); captures the service's config mapping `cfg`. -/
inductive ExclusionRule : Type where
  | fromCfg : Value → ExclusionRule

/-- An enrichment rule: either the unconditional single-template rule
(capturing `cfg`) or a conditional rule capturing one `IF`/`THEN` list
entry `e`. -/
inductive EnrichmentRule : Type where
  | uncond : Value → EnrichmentRule
  | cond : Value → EnrichmentRule

/-- A routing rule: either the unconditional single-destination rule
(capturing `cfg`) or a conditional rule capturing one `IF`/`THEN` list
entry `r`. -/
inductive RoutingRule : Type where
  | uncond : Value → RoutingRule
  | cond : Value → RoutingRule

/-- Body of the classification lambda:
`Severity.CRITICAL if any(crit in x.message.lower() for crit in
cfg['classification'].get('CRITICAL', [])) else Severity.WARNING if ...
else Severity.OK if ... else Severity.UNKNOWN`.  Note that the configured
keywords are tested as-is against the lower-cased message. -/
def ClassificationRule.apply : ClassificationRule → Alert → Except Err Severity
  | .fromCfg cfg, x =>
    match cfg.getItem "classification" with
    | .error e => .error e
    | .ok cls =>
      match cls.getD "CRITICAL" (.list []) with
      | .error e => .error e
      | .ok crits =>
        match anyContains crits (lower x.message) with
        | .error e => .error e
        | .ok true => .ok .critical
        | .ok false =>
          match cls.getD "WARNING" (.list []) with
          | .error e => .error e
          | .ok warns =>
            match anyContains warns (lower x.message) with
            | .error e => .error e
            | .ok true => .ok .warning
            | .ok false =>
              match cls.getD "OK" (.list []) with
              | .error e => .error e
              | .ok oks =>
                match anyContains oks (lower x.message) with
                | .error e => .error e
                | .ok true => .ok .ok
                | .ok false => .ok .unknown

/-- Body of the exclusion lambda:
`any(ignore in x.message.lower() for ignore in cfg['exclude'])`. -/
def ExclusionRule.apply : ExclusionRule → Alert → Except Err Bool
  | .fromCfg cfg, x =>
    match cfg.getItem "exclude" with
    | .error e => .error e
    | .ok kws => anyContains kws (lower x.message)

/-- Python `v.lower()`: only strings have `.lower`. -/
def pyLower : Value → Except Err String
  | .str s => .ok (lower s)
  | _ => .error .attributeError

/-- Python `v.format(msg)`: only strings have `.format`. -/
def pyFormat (v : Value) (msg : String) : Except Err String :=
  match v with
  | .str s => .ok (fmt s msg)
  | _ => .error .attributeError

/-- Bodies of the enrichment lambdas.  The unconditional rule returns
`{'message': cfg['enrichments'].format(x.message)}` always; the
conditional rule returns `{'message': e['THEN'].format(x.message)} if
e['IF'].lower() in x.message.lower() else None`. -/
def EnrichmentRule.apply : EnrichmentRule → Alert → Except Err Value
  | .uncond cfg, x =>
    match cfg.getItem "enrichments" with
    | .error e => .error e
    | .ok t =>
      match pyFormat t x.message with
      | .error e => .error e
      | .ok s => .ok (.dict [("message", .str s)])
  | .cond e, x =>
    match e.getItem "IF" with
    | .error err => .error err
    | .ok ifv =>
      match pyLower ifv with
      | .error err => .error err
      | .ok ifs =>
        if pyIn ifs (lower x.message) then
          match e.getItem "THEN" with
          | .error err => .error err
          | .ok tv =>
            match pyFormat tv x.message with
            | .error err => .error err
            | .ok s => .ok (.dict [("message", .str s)])
        else .ok .none

/-- Bodies of the routing lambdas.  The unconditional rule returns
`cfg['routes']` always; the conditional rule returns
`r['THEN'] if r['IF'].lower() in x.message.lower() else None`. -/
def RoutingRule.apply : RoutingRule → Alert → Except Err Value
  | .uncond cfg, _ => cfg.getItem "routes"
  | .cond r, x =>
    match r.getItem "IF" with
    | .error err => .error err
    | .ok ifv =>
      match pyLower ifv with
      | .error err => .error err
      | .ok ifs =>
        if pyIn ifs (lower x.message) then r.getItem "THEN"
        else .ok .none

/-- The parsed configuration tree `self._config`: a mapping from service
name to that service's config mapping, iterated in insertion order. -/
abbrev Config : Type := List (String × Value)

/-- Python dict lookup `self._config[service]`: `KeyError` if absent. -/
def configGet (config : Config) (k : String) : Except Err Value :=
  match config.find? (fun p => p.1 == k) with
  | some p => .ok p.2
  | Option.none => .error (.keyError k)

/-- One of the four per-service rule dictionaries of the `Rules` object. -/
def Dict (α : Type) : Type := String → Option α

/-- The empty dictionary. -/
def Dict.empty {α : Type} : Dict α := fun _ => Option.none

/-- Python dict assignment `d[k] = v` (last write wins). -/
def Dict.insert {α : Type} (d : Dict α) (k : String) (v : α) : Dict α :=
  fun k' => if k' = k then some v else d k'

/-- The mutable state of a `Rules` object: its four rule dictionaries,
keyed by lower-cased service name. -/
structure RulesState : Type where
  classification : Dict (List ClassificationRule)
  exclusion : Dict (List ExclusionRule)
  enrichment : Dict (List EnrichmentRule)
  routing : Dict (List RoutingRule)

/-- The state of a freshly constructed `Rules` object, before any
`_build_rules` call. -/
def RulesState.empty : RulesState :=
  ⟨Dict.empty, Dict.empty, Dict.empty, Dict.empty⟩

/-- The classification rule list `_build_classification_rules` stores for
a service: required section check, then the single keyword-severity rule
capturing `cfg`. -/
def classificationListFor (service : String) (cfg : Value) :
    Except Err (List ClassificationRule) :=
  match cfg.containsKey "classification" with
  | .error e => .error e
  | .ok false =>
    .error (.configurationError
      ("classification rules not defined for " ++ service))
  | .ok true => .ok [ClassificationRule.fromCfg cfg]

/-- The exclusion rule list `_build_exclusion_rules` stores for a
service: empty when the optional `exclude` section is absent, otherwise
the single keyword rule capturing `cfg`. -/
def exclusionListFor (cfg : Value) : Except Err (List ExclusionRule) :=
  match cfg.containsKey "exclude" with
  | .error e => .error e
  | .ok false => .ok []
  | .ok true => .ok [ExclusionRule.fromCfg cfg]

/-- The enrichment rule list `_build_enrichment_rules` stores for a
service: empty when the optional `enrichments` section is absent; one
unconditional rule for a single template string; one conditional rule per
entry for a list; `ConfigurationError` for any other shape. -/
def enrichmentListFor (service : String) (cfg : Value) :
    Except Err (List EnrichmentRule) :=
  match cfg.containsKey "enrichments" with
  | .error e => .error e
  | .ok false => .ok []
  | .ok true =>
    match cfg.getItem "enrichments" with
    | .error e => .error e
    | .ok (.str _) => .ok [EnrichmentRule.uncond cfg]
    | .ok (.list es) => .ok (es.map EnrichmentRule.cond)
    | .ok _ =>
      .error (.configurationError
        ("Invalid enrichments definition for " ++ service))

/-- The routing rule list `_build_routing_rules` stores for a service:
required section check, then one unconditional rule for a single
destination string, one conditional rule per entry for a list, and
`ConfigurationError` for any other shape. -/
def routingListFor (service : String) (cfg : Value) :
    Except Err (List RoutingRule) :=
  match cfg.containsKey "routes" with
  | .error e => .error e
  | .ok false => .error (.configurationError ("routes not defined for " ++ service))
  | .ok true =>
    match cfg.getItem "routes" with
    | .error e => .error e
    | .ok (.str _) => .ok [RoutingRule.uncond cfg]
    | .ok (.list rs) => .ok (rs.map RoutingRule.cond)
    | .ok _ =>
      .error (.configurationError ("invalid routes definition for " ++ service))

/-- Python `_build_classification_rules`: lower-case the service name, look it
up in the config tree, and store its classification rule list. -/
def buildClassificationRules (config : Config) (st : RulesState)
    (service : String) : Except Err RulesState :=
  match configGet config (lower service) with
  | .error e => .error e
  | .ok cfg =>
    match classificationListFor (lower service) cfg with
    | .error e => .error e
    | .ok l =>
      .ok { st with
            classification := st.classification.insert (lower service) l }

/-- Python `_build_exclusion_rules`: lower-case the service name, look it up in
the config tree, and store its exclusion rule list. -/
def buildExclusionRules (config : Config) (st : RulesState)
    (service : String) : Except Err RulesState :=
  match configGet config (lower service) with
  | .error e => .error e
  | .ok cfg =>
    match exclusionListFor cfg with
    | .error e => .error e
    | .ok l =>
      .ok { st with exclusion := st.exclusion.insert (lower service) l }

/-- Python `_build_enrichment_rules`: lower-case the service name, look it up in
the config tree, and store its enrichment rule list. -/
def buildEnrichmentRules (config : Config) (st : RulesState)
    (service : String) : Except Err RulesState :=
  match configGet config (lower service) with
  | .error e => .error e
  | .ok cfg =>
    match enrichmentListFor (lower service) cfg with
    | .error e => .error e
    | .ok l =>
      .ok { st with enrichment := st.enrichment.insert (lower service) l }

/-- Python `_build_routing_rules`: lower-case the service name, look it up in
the config tree, and store its routing rule list. -/
def buildRoutingRules (config : Config) (st : RulesState)
    (service : String) : Except Err RulesState :=
  match configGet config (lower service) with
  | .error e => .error e
  | .ok cfg =>
    match routingListFor (lower service) cfg with
    | .error e => .error e
    | .ok l =>
      .ok { st with routing := st.routing.insert (lower service) l }

/-- Python `_build_rules`: build the four rule sets for one service, in the
order the constructor calls them. -/
def buildRules (config : Config) (st : RulesState) (service : String) :
    Except Err RulesState :=
  match buildClassificationRules config st service with
  | .error e => .error e
  | .ok st₁ =>
    match buildExclusionRules config st₁ service with
    | .error e => .error e
    | .ok st₂ =>
      match buildEnrichmentRules config st₂ service with
      | .error e => .error e
      | .ok st₃ => buildRoutingRules config st₃ service

/-- The constructor loop `for section in self._config:
self._build_rules(section)`, iterating the config keys in order. -/
def buildAll (config : Config) (st : RulesState) :
    List (String × Value) → Except Err RulesState
  | [] => .ok st
  | p :: ps =>
    match buildRules config st p.1 with
    | .error e => .error e
    | .ok st' => buildAll config st' ps

/-- Python `Rules.__init__` on an already-parsed configuration tree: build every
service's rule sets, starting from the empty state.  An exception aborts
construction, so no (partial) `Rules` object exists on the error path. -/
def rulesInit (config : Config) : Except Err RulesState :=
  buildAll config RulesState.empty config

/-- Python `Rules.get_classification_rules`: lower-case the service name, look
it up, and convert the `KeyError` of a missing service into
`ServiceNotDefinedError`. -/
def getClassificationRules (st : RulesState) (service : String) :
    Except Err (List ClassificationRule) :=
  match st.classification (lower service) with
  | some l => .ok l
  | Option.none => .error (.serviceNotDefinedError (lower service))

/-- Python `Rules.get_exclusion_rules`. -/
def getExclusionRules (st : RulesState) (service : String) :
    Except Err (List ExclusionRule) :=
  match st.exclusion (lower service) with
  | some l => .ok l
  | Option.none => .error (.serviceNotDefinedError (lower service))

/-- Python `Rules.get_enrichment_rules`. -/
def getEnrichmentRules (st : RulesState) (service : String) :
    Except Err (List EnrichmentRule) :=
  match st.enrichment (lower service) with
  | some l => .ok l
  | Option.none => .error (.serviceNotDefinedError (lower service))

/-- Python `Rules.get_routing_rules`. -/
def getRoutingRules (st : RulesState) (service : String) :
    Except Err (List RoutingRule) :=
  match st.routing (lower service) with
  | some l => .ok l
  | Option.none => .error (.serviceNotDefinedError (lower service))

/-- Modelled from the spec: the Rule Evaluator (§4.3) applies every
enrichment rule in configured order and collects every result that is not
"no effect" (Python `None`) into an ordered sequence; the evaluator
itself lives outside `rules.py`. -/
def evalEnrichmentRules : List EnrichmentRule → Alert → Except Err (List Value)
  | [], _ => .ok []
  | r :: rs, x =>
    match r.apply x with
    | .error e => .error e
    | .ok v =>
      match evalEnrichmentRules rs x with
      | .error e => .error e
      | .ok rest => .ok (if v.isNone then rest else v :: rest)

/-- Modelled from the spec: the Rule Evaluator (§4.3) applies every
routing rule in configured order and collects every non-`None`
destination, symmetric to enrichment; the evaluator itself lives outside
`rules.py`. -/
def evalRoutingRules : List RoutingRule → Alert → Except Err (List Value)
  | [], _ => .ok []
  | r :: rs, x =>
    match r.apply x with
    | .error e => .error e
    | .ok v =>
      match evalRoutingRules rs x with
      | .error e => .error e
      | .ok rest => .ok (if v.isNone then rest else v :: rest)

/-- Modelled from the spec: the Rule Evaluator (§4.3) applies the
exclusion rule if present; an empty exclusion set means "not excluded";
the evaluator itself lives outside `rules.py`. -/
def evalExclusionRules : List ExclusionRule → Alert → Except Err Bool
  | [], _ => .ok false
  | r :: rs, x =>
    match r.apply x with
    | .error e => .error e
    | .ok true => .ok true
    | .ok false => evalExclusionRules rs x

/-! ### Basic lemmas about keyword matching -/

theorem isPre_refl (l : List Char) : isPre l l = true := by
  induction l with
  | nil => rfl
  | cons a as ih => simp [isPre, ih]

theorem pyInL_self (l : List Char) : pyInL l l = true := by
  cases l with
  | nil => rfl
  | cons b bs => simp [pyInL, isPre_refl]

theorem pyIn_self (s : String) : pyIn s s = true :=
  pyInL_self s.toList

theorem anyIn_strList (l : List String) (hay : String) :
    anyIn (l.map Value.str) hay = .ok (l.any fun s => pyIn s hay) := by
  induction l with
  | nil => rfl
  | cons a as ih =>
    cases h : pyIn a hay <;> simp [anyIn, h, ih]

theorem anyContains_strList (l : List String) (hay : String) :
    anyContains (strList l) hay = .ok (l.any fun s => pyIn s hay) := by
  simp [anyContains, strList, Value.iterElems, anyIn_strList]

/-- C1: For every service whose config contains a classification
section and every alert, the compiled classification rule returns
`CRITICAL` if any `CRITICAL` keyword is contained in the lower-cased
alert message; otherwise `WARNING` if any `WARNING` keyword is contained;
otherwise `OK` if any `OK` keyword is contained; otherwise `UNKNOWN` — in
that fixed precedence order, with an absent severity bucket treated as
the empty keyword set (the `.get(..., [])` defaults in the hypotheses). -/
theorem spec_C1 (cls rest : List (String × Value)) (C W O : List String)
    (s : String) (x : Alert)
    (hC : Value.getD (.dict cls) "CRITICAL" (.list []) = .ok (strList C))
    (hW : Value.getD (.dict cls) "WARNING" (.list []) = .ok (strList W))
    (hO : Value.getD (.dict cls) "OK" (.list []) = .ok (strList O)) :
    classificationListFor s (.dict (("classification", .dict cls) :: rest))
      = .ok [ClassificationRule.fromCfg
          (.dict (("classification", .dict cls) :: rest))] ∧
    (ClassificationRule.fromCfg
        (.dict (("classification", .dict cls) :: rest))).apply x
      = .ok (if C.any (fun k => pyIn k (lower x.message)) then .critical
             else if W.any (fun k => pyIn k (lower x.message)) then .warning
             else if O.any (fun k => pyIn k (lower x.message)) then .ok
             else .unknown) := by
  constructor
  · simp [classificationListFor, Value.containsKey]
  · cases hc : C.any (fun k => pyIn k (lower x.message)) <;>
      cases hw : W.any (fun k => pyIn k (lower x.message)) <;>
        cases ho : O.any (fun k => pyIn k (lower x.message)) <;>
          simp [ClassificationRule.apply, Value.getItem, List.find?, hC, hW,
            hO, anyContains_strList, hc, hw, ho]

/-- Witness for C1: the spec's example scenario 1 — config
`{CRITICAL: ["db down"], WARNING: ["latency"]}` (no `OK` bucket), message
`"DB DOWN and slow"` classifies as `CRITICAL`. -/
theorem spec_C1_witness :
    classificationListFor "svc"
        (.dict [("classification",
          .dict [("CRITICAL", strList ["db down"]),
                 ("WARNING", strList ["latency"])])])
      = .ok [ClassificationRule.fromCfg
          (.dict [("classification",
            .dict [("CRITICAL", strList ["db down"]),
                   ("WARNING", strList ["latency"])])])] ∧
    (ClassificationRule.fromCfg
        (.dict [("classification",
          .dict [("CRITICAL", strList ["db down"]),
                 ("WARNING", strList ["latency"])])])).apply
        ⟨"DB DOWN and slow"⟩
      = .ok .critical := by
  have h := spec_C1
    [("CRITICAL", strList ["db down"]), ("WARNING", strList ["latency"])]
    [] ["db down"] ["latency"] [] "svc" ⟨"DB DOWN and slow"⟩ rfl rfl rfl
  exact ⟨h.1, h.2.trans (by rfl)⟩

/-! ### Case sensitivity of keyword matching (C2) -/

/-- A service config whose `CRITICAL` and `exclude` keyword `"DB"`
contains upper-case letters. -/
def c2cfg : Value :=
  .dict [("classification", .dict [("CRITICAL", strList ["DB"])]),
         ("exclude", strList ["DB"]),
         ("routes", .str "chan")]

/-- A configuration tree with the single service `svc` using `c2cfg`. -/
def c2config : Config := [("svc", c2cfg)]

/-- The rule store compiled from `c2config`. -/
def c2state : RulesState :=
  match rulesInit c2config with
  | .ok st => st
  | .error _ => RulesState.empty

/-- C2 counterexample: The claim that every keyword match lower-cases
both the message and the configured keyword is false for classification
and exclusion: with configured keyword `"DB"`, the message `"db"` —
which differs from the keyword only in letter case (`lower "DB" = "db"`)
— does not match: classification returns `UNKNOWN` (not `CRITICAL`) and
exclusion returns `false`, because those rules test the configured
keyword as-is against the lower-cased message. -/
theorem spec_C2_counterexample :
    rulesInit c2config = .ok c2state ∧
    getClassificationRules c2state "svc" = .ok [.fromCfg c2cfg] ∧
    getExclusionRules c2state "svc" = .ok [.fromCfg c2cfg] ∧
    lower "DB" = "db" ∧
    (ClassificationRule.fromCfg c2cfg).apply ⟨"db"⟩ = .ok .unknown ∧
    (ExclusionRule.fromCfg c2cfg).apply ⟨"db"⟩ = .ok false :=
  ⟨rfl, rfl, rfl, rfl, rfl, rfl⟩

/-- C2 amended: Enrichment and routing rule conditions lower-case
both the configured `IF` keyword and the alert message, so there a
message differing from the keyword only in letter case still matches;
classification and exclusion matching lower-cases only the alert message
and compares the configured keywords as-is, so for those a message
differing only in case is guaranteed to match only when the configured
keyword is already lower-case. -/
theorem spec_C2_amended (k t dst : String) (x : Alert)
    (hcase : lower x.message = lower k) :
    (EnrichmentRule.cond (.dict [("IF", .str k), ("THEN", .str t)])).apply x
      = .ok (.dict [("message", .str (fmt t x.message))]) ∧
    (RoutingRule.cond (.dict [("IF", .str k), ("THEN", .str dst)])).apply x
      = .ok (.str dst) ∧
    (lower k = k →
      (ClassificationRule.fromCfg
          (.dict [("classification",
            .dict [("CRITICAL", strList [k])])])).apply x
        = .ok .critical ∧
      (ExclusionRule.fromCfg (.dict [("exclude", strList [k])])).apply x
        = .ok true) := by
  refine ⟨?_, ?_, fun hk => ⟨?_, ?_⟩⟩
  · simp [EnrichmentRule.apply, Value.getItem, List.find?, pyLower, pyFormat,
      hcase, pyIn_self]
  · simp [RoutingRule.apply, Value.getItem, List.find?, pyLower, hcase,
      pyIn_self]
  · have : pyIn k (lower x.message) = true := by
      rw [hcase, hk]; exact pyIn_self k
    simp [ClassificationRule.apply, Value.getItem, Value.getD, List.find?,
      anyContains_strList, this]
  · have : pyIn k (lower x.message) = true := by
      rw [hcase, hk]; exact pyIn_self k
    simp [ExclusionRule.apply, Value.getItem, List.find?, anyContains_strList,
      this]

/-- Witness for the amended C2: keyword `"db"`, message `"DB"` (differs
only in case); the enrichment and routing conditions match, and — the
keyword being lower-case — classification and exclusion match too. -/
theorem spec_C2_amended_witness :
    (EnrichmentRule.cond
        (.dict [("IF", .str "db"), ("THEN", .str "dba \x7b0\x7d")])).apply
        ⟨"DB"⟩
      = .ok (.dict [("message", .str "dba DB")]) ∧
    (RoutingRule.cond
        (.dict [("IF", .str "db"), ("THEN", .str "chan")])).apply ⟨"DB"⟩
      = .ok (.str "chan") ∧
    (ClassificationRule.fromCfg
        (.dict [("classification", .dict [("CRITICAL", strList ["db"])])])).apply
        ⟨"DB"⟩
      = .ok .critical ∧
    (ExclusionRule.fromCfg (.dict [("exclude", strList ["db"])])).apply ⟨"DB"⟩
      = .ok true := by
  have h := spec_C2_amended "db" "dba \x7b0\x7d" "chan" ⟨"DB"⟩ rfl
  have h3 := h.2.2 rfl
  exact ⟨h.1.trans (by rfl), h.2.1, h3.1, h3.2⟩

/-! ### List-form enrichment and routing rules (C4) -/

/-- A well-formed `{IF: keyword, THEN: template-or-destination}` list
entry. -/
def mkIfThen (p : String × String) : Value :=
  .dict [("IF", .str p.1), ("THEN", .str p.2)]

theorem enrichCond_mkIfThen (p : String × String) (x : Alert) :
    (EnrichmentRule.cond (mkIfThen p)).apply x
      = .ok (if pyIn (lower p.1) (lower x.message)
             then .dict [("message", .str (fmt p.2 x.message))]
             else .none) := by
  cases h : pyIn (lower p.1) (lower x.message) <;>
    simp [EnrichmentRule.apply, mkIfThen, Value.getItem, List.find?, pyLower,
      pyFormat, h]

theorem routeCond_mkIfThen (p : String × String) (x : Alert) :
    (RoutingRule.cond (mkIfThen p)).apply x
      = .ok (if pyIn (lower p.1) (lower x.message) then .str p.2 else .none) := by
  cases h : pyIn (lower p.1) (lower x.message) <;>
    simp [RoutingRule.apply, mkIfThen, Value.getItem, List.find?, pyLower, h]

theorem evalEnrich_mkIfThen (pairs : List (String × String)) (x : Alert) :
    evalEnrichmentRules ((pairs.map mkIfThen).map EnrichmentRule.cond) x
      = .ok ((pairs.filter (fun p => pyIn (lower p.1) (lower x.message))).map
          (fun p => Value.dict [("message", .str (fmt p.2 x.message))])) := by
  induction pairs with
  | nil => rfl
  | cons p ps ih =>
    simp only [List.map_map] at ih
    cases h : pyIn (lower p.1) (lower x.message) <;>
      simp [evalEnrichmentRules, enrichCond_mkIfThen, h, ih, Value.isNone,
        List.filter_cons]

theorem evalRoute_mkIfThen (pairs : List (String × String)) (x : Alert) :
    evalRoutingRules ((pairs.map mkIfThen).map RoutingRule.cond) x
      = .ok ((pairs.filter (fun p => pyIn (lower p.1) (lower x.message))).map
          (fun p => Value.str p.2)) := by
  induction pairs with
  | nil => rfl
  | cons p ps ih =>
    simp only [List.map_map] at ih
    cases h : pyIn (lower p.1) (lower x.message) <;>
      simp [evalRoutingRules, routeCond_mkIfThen, h, ih, Value.isNone,
        List.filter_cons]

/-- C4: For a service whose `enrichments` (resp. `routes`) section is
a list of `N` `{IF, THEN}` entries, compilation produces exactly `N`
rules in the list's order; the `i`-th rule applied to an alert returns
`{message: THEN formatted with the alert message}` (resp. the `THEN`
destination) exactly when the lower-cased `IF` keyword is contained in
the lower-cased alert message, and `None` ("no effect") otherwise; so
evaluating all rules yields exactly the matching entries' results, in the
original entries' order, each derived only from its own entry (the `K`
matches of the claim being the filtered sublist). -/
theorem spec_C4 (pairs : List (String × String)) (s : String)
    (rest rest' : List (String × Value)) (x : Alert) :
    enrichmentListFor s
        (.dict (("enrichments", .list (pairs.map mkIfThen)) :: rest))
      = .ok ((pairs.map mkIfThen).map EnrichmentRule.cond) ∧
    routingListFor s (.dict (("routes", .list (pairs.map mkIfThen)) :: rest'))
      = .ok ((pairs.map mkIfThen).map RoutingRule.cond) ∧
    ((pairs.map mkIfThen).map EnrichmentRule.cond).length = pairs.length ∧
    (∀ p : String × String,
      (EnrichmentRule.cond (mkIfThen p)).apply x
        = .ok (if pyIn (lower p.1) (lower x.message)
               then .dict [("message", .str (fmt p.2 x.message))]
               else .none) ∧
      (RoutingRule.cond (mkIfThen p)).apply x
        = .ok (if pyIn (lower p.1) (lower x.message) then .str p.2
               else .none)) ∧
    evalEnrichmentRules ((pairs.map mkIfThen).map EnrichmentRule.cond) x
      = .ok ((pairs.filter (fun p => pyIn (lower p.1) (lower x.message))).map
          (fun p => Value.dict [("message", .str (fmt p.2 x.message))])) ∧
    evalRoutingRules ((pairs.map mkIfThen).map RoutingRule.cond) x
      = .ok ((pairs.filter (fun p => pyIn (lower p.1) (lower x.message))).map
          (fun p => Value.str p.2)) := by
  refine ⟨?_, ?_, by simp, fun p => ⟨enrichCond_mkIfThen p x, routeCond_mkIfThen p x⟩,
    evalEnrich_mkIfThen pairs x, evalRoute_mkIfThen pairs x⟩
  · simp [enrichmentListFor, Value.containsKey, Value.getItem, List.find?]
  · simp [routingListFor, Value.containsKey, Value.getItem, List.find?]

/-! ### Single-string sections and invalid shapes (C5) -/

/-- C5: A single-string `enrichments` (resp. `routes`) section
compiles to exactly one unconditional rule which, for every alert,
returns `{message: template formatted with the alert message}` (resp.
that destination string); a section value that is neither a string nor a
list fails compilation with `ConfigurationError`. -/
theorem spec_C5 (t dst s : String) (rest rest' : List (String × Value))
    (x : Alert) (v : Value)
    (hs : ∀ u : String, v ≠ .str u) (hl : ∀ l : List Value, v ≠ .list l) :
    enrichmentListFor s (.dict (("enrichments", .str t) :: rest))
      = .ok [EnrichmentRule.uncond (.dict (("enrichments", .str t) :: rest))] ∧
    (EnrichmentRule.uncond (.dict (("enrichments", .str t) :: rest))).apply x
      = .ok (.dict [("message", .str (fmt t x.message))]) ∧
    routingListFor s (.dict (("routes", .str dst) :: rest'))
      = .ok [RoutingRule.uncond (.dict (("routes", .str dst) :: rest'))] ∧
    (RoutingRule.uncond (.dict (("routes", .str dst) :: rest'))).apply x
      = .ok (.str dst) ∧
    (∃ m, enrichmentListFor s (.dict (("enrichments", v) :: rest))
      = .error (.configurationError m)) ∧
    (∃ m, routingListFor s (.dict (("routes", v) :: rest'))
      = .error (.configurationError m)) := by
  refine ⟨?_, ?_, ?_, ?_, ?_, ?_⟩
  · simp [enrichmentListFor, Value.containsKey, Value.getItem, List.find?]
  · simp [EnrichmentRule.apply, Value.getItem, List.find?, pyFormat]
  · simp [routingListFor, Value.containsKey, Value.getItem, List.find?]
  · simp [RoutingRule.apply, Value.getItem, List.find?]
  · refine ⟨"Invalid enrichments definition for " ++ s, ?_⟩
    cases v <;>
      simp_all [enrichmentListFor, Value.containsKey, Value.getItem,
        List.find?]
  · refine ⟨"invalid routes definition for " ++ s, ?_⟩
    cases v <;>
      simp_all [routingListFor, Value.containsKey, Value.getItem, List.find?]

/-- Witness for C5: the spec's example scenario 3 (template
`"Alert: \x7b0\x7d"`, message `"disk full"`), a plain destination string,
and the non-string/non-list section value `7`. -/
theorem spec_C5_witness :
    enrichmentListFor "svc" (.dict [("enrichments", .str "Alert: \x7b0\x7d")])
      = .ok [EnrichmentRule.uncond (.dict [("enrichments", .str "Alert: \x7b0\x7d")])] ∧
    (EnrichmentRule.uncond (.dict [("enrichments", .str "Alert: \x7b0\x7d")])).apply
        ⟨"disk full"⟩
      = .ok (.dict [("message", .str "Alert: disk full")]) ∧
    (∃ m, enrichmentListFor "svc" (.dict [("enrichments", .int 7)])
      = .error (.configurationError m)) ∧
    (∃ m, routingListFor "svc" (.dict [("routes", .int 7)])
      = .error (.configurationError m)) := by
  have h := spec_C5 "Alert: \x7b0\x7d" "chan" "svc" [] [] ⟨"disk full"⟩
    (.int 7) (fun u hu => by cases hu) (fun l hl => by cases hl)
  exact ⟨h.1, h.2.1.trans (by rfl), h.2.2.2.2.1, h.2.2.2.2.2⟩

/-! ### Entry shape is not validated at compile time (C10) -/

/-- C10: Compile-time validation of a list-form `enrichments` or
`routes` section checks only the outer container type: any list of
entries — of whatever shape — is accepted without `ConfigurationError`,
one conditional rule per entry; an entry whose `IF` lookup fails (not a
mapping, or missing the key) only raises that key-lookup error when the
produced rule is applied to an alert, and an entry with a matching `IF`
but no `THEN` likewise fails only at application time. -/
theorem spec_C10 (es : List Value) (s : String)
    (rest rest' : List (String × Value)) (e e₂ : Value) (x : Alert)
    (err err₂ : Err) (k : String)
    (hIF : e.getItem "IF" = .error err)
    (hIF₂ : e₂.getItem "IF" = .ok (.str k))
    (hmatch : pyIn (lower k) (lower x.message) = true)
    (hTHEN₂ : e₂.getItem "THEN" = .error err₂) :
    enrichmentListFor s (.dict (("enrichments", .list es) :: rest))
      = .ok (es.map EnrichmentRule.cond) ∧
    routingListFor s (.dict (("routes", .list es) :: rest'))
      = .ok (es.map RoutingRule.cond) ∧
    (EnrichmentRule.cond e).apply x = .error err ∧
    (RoutingRule.cond e).apply x = .error err ∧
    (EnrichmentRule.cond e₂).apply x = .error err₂ ∧
    (RoutingRule.cond e₂).apply x = .error err₂ := by
  refine ⟨?_, ?_, ?_, ?_, ?_, ?_⟩
  · simp [enrichmentListFor, Value.containsKey, Value.getItem, List.find?]
  · simp [routingListFor, Value.containsKey, Value.getItem, List.find?]
  · simp [EnrichmentRule.apply, hIF]
  · simp [RoutingRule.apply, hIF]
  · simp [EnrichmentRule.apply, hIF₂, pyLower, hmatch, hTHEN₂]
  · simp [RoutingRule.apply, hIF₂, pyLower, hmatch, hTHEN₂]

/-- Witness for C10: the malformed entries `{THEN: "t"}` (no `IF`) and
`{IF: "db"}` (no `THEN`) compile fine inside a list section but raise
`KeyError` when their rules run on the message `"db down"`. -/
theorem spec_C10_witness :
    enrichmentListFor "svc"
        (.dict [("enrichments", .list [.dict [("THEN", .str "t")]])])
      = .ok [EnrichmentRule.cond (.dict [("THEN", .str "t")])] ∧
    (EnrichmentRule.cond (.dict [("THEN", .str "t")])).apply ⟨"db down"⟩
      = .error (.keyError "IF") ∧
    (RoutingRule.cond (.dict [("IF", .str "db")])).apply ⟨"db down"⟩
      = .error (.keyError "THEN") := by
  have h := spec_C10 [.dict [("THEN", .str "t")]] "svc" [] []
    (.dict [("THEN", .str "t")]) (.dict [("IF", .str "db")]) ⟨"db down"⟩
    (.keyError "IF") (.keyError "THEN") "db" rfl rfl rfl rfl
  exact ⟨h.1, h.2.2.1, h.2.2.2.2.2⟩

/-! ### Mixed-case service keys crash compilation (C7) -/

/-- A structurally valid service config (classification and routes both
present) filed under the mixed-case service key `"Jenkins"`. -/
def upperCfg : Value :=
  .dict [("classification", .dict [("CRITICAL", strList ["fail"])]),
         ("routes", .str "chan")]

/-- A configuration tree whose only service key contains upper-case
letters. -/
def upperConfig : Config := [("Jenkins", upperCfg)]

/-- C7 bug evidence: Compilation of a configuration tree whose
service key `"Jenkins"` contains upper-case letters does not succeed:
`_build_classification_rules` lower-cases the name and then re-indexes
the original config mapping with the lower-cased key, so it raises
`KeyError('jenkins')` instead of inserting the service under its
normalized name. -/
theorem spec_C7_bug :
    rulesInit upperConfig = .error (.keyError "jenkins") ∧
    lower "Jenkins" = "jenkins" :=
  ⟨rfl, rfl⟩

/-! ### Inversion lemmas for the per-service builders -/

theorem buildClassificationRules_ok {config : Config} {st st' : RulesState}
    {service : String}
    (h : buildClassificationRules config st service = .ok st') :
    ∃ cfg cl, configGet config (lower service) = .ok cfg ∧
      classificationListFor (lower service) cfg = .ok cl ∧
      st' = { st with
              classification := st.classification.insert (lower service) cl } := by
  unfold buildClassificationRules at h
  split at h
  · simp at h
  · next cfg heq =>
    split at h
    · simp at h
    · next cl heq2 =>
      simp only [Except.ok.injEq] at h
      exact ⟨cfg, cl, heq, heq2, h.symm⟩

theorem buildExclusionRules_ok {config : Config} {st st' : RulesState}
    {service : String}
    (h : buildExclusionRules config st service = .ok st') :
    ∃ cfg ex, configGet config (lower service) = .ok cfg ∧
      exclusionListFor cfg = .ok ex ∧
      st' = { st with exclusion := st.exclusion.insert (lower service) ex } := by
  unfold buildExclusionRules at h
  split at h
  · simp at h
  · next cfg heq =>
    split at h
    · simp at h
    · next ex heq2 =>
      simp only [Except.ok.injEq] at h
      exact ⟨cfg, ex, heq, heq2, h.symm⟩

theorem buildEnrichmentRules_ok {config : Config} {st st' : RulesState}
    {service : String}
    (h : buildEnrichmentRules config st service = .ok st') :
    ∃ cfg en, configGet config (lower service) = .ok cfg ∧
      enrichmentListFor (lower service) cfg = .ok en ∧
      st' = { st with enrichment := st.enrichment.insert (lower service) en } := by
  unfold buildEnrichmentRules at h
  split at h
  · simp at h
  · next cfg heq =>
    split at h
    · simp at h
    · next en heq2 =>
      simp only [Except.ok.injEq] at h
      exact ⟨cfg, en, heq, heq2, h.symm⟩

theorem buildRoutingRules_ok {config : Config} {st st' : RulesState}
    {service : String}
    (h : buildRoutingRules config st service = .ok st') :
    ∃ cfg ro, configGet config (lower service) = .ok cfg ∧
      routingListFor (lower service) cfg = .ok ro ∧
      st' = { st with routing := st.routing.insert (lower service) ro } := by
  unfold buildRoutingRules at h
  split at h
  · simp at h
  · next cfg heq =>
    split at h
    · simp at h
    · next ro heq2 =>
      simp only [Except.ok.injEq] at h
      exact ⟨cfg, ro, heq, heq2, h.symm⟩

/-- A successful `_build_rules(service)` call inserts, at the lower-cased
service name, exactly the four rule lists computed from that service's
config entry — each field otherwise untouched. -/
theorem buildRules_ok {config : Config} {st st' : RulesState}
    {service : String} (h : buildRules config st service = .ok st') :
    ∃ cfg cl ex en ro,
      configGet config (lower service) = .ok cfg ∧
      classificationListFor (lower service) cfg = .ok cl ∧
      exclusionListFor cfg = .ok ex ∧
      enrichmentListFor (lower service) cfg = .ok en ∧
      routingListFor (lower service) cfg = .ok ro ∧
      st'.classification = st.classification.insert (lower service) cl ∧
      st'.exclusion = st.exclusion.insert (lower service) ex ∧
      st'.enrichment = st.enrichment.insert (lower service) en ∧
      st'.routing = st.routing.insert (lower service) ro := by
  unfold buildRules at h
  split at h
  · simp at h
  · next st₁ h₁ =>
    split at h
    · simp at h
    · next st₂ h₂ =>
      split at h
      · simp at h
      · next st₃ h₃ =>
        obtain ⟨cfg, cl, hg₁, hcl, rfl⟩ := buildClassificationRules_ok h₁
        obtain ⟨cfg₂, ex, hg₂, hex, rfl⟩ := buildExclusionRules_ok h₂
        obtain ⟨cfg₃, en, hg₃, hen, rfl⟩ := buildEnrichmentRules_ok h₃
        obtain ⟨cfg₄, ro, hg₄, hro, rfl⟩ := buildRoutingRules_ok h
        rw [hg₁] at hg₂ hg₃ hg₄
        simp only [Except.ok.injEq] at hg₂ hg₃ hg₄
        subst hg₂; subst hg₃; subst hg₄
        exact ⟨cfg, cl, ex, en, ro, hg₁, hcl, hex, hen, hro, rfl, rfl, rfl, rfl⟩

/-- A successful `_build_rules` call leaves every other key of the four
rule dictionaries unchanged. -/
theorem buildRules_ok_other {config : Config} {st st' : RulesState}
    {service : String} (h : buildRules config st service = .ok st')
    {k : String} (hk : k ≠ lower service) :
    st'.classification k = st.classification k ∧
    st'.exclusion k = st.exclusion k ∧
    st'.enrichment k = st.enrichment k ∧
    st'.routing k = st.routing k := by
  obtain ⟨cfg, cl, ex, en, ro, _, _, _, _, _, hc, he, hn, hr⟩ := buildRules_ok h
  simp [hc, he, hn, hr, Dict.insert, hk]

/-- Invariant of the constructor loop: after a successful run over
`entries`, a key `k` not named (lower-cased) by any entry is untouched,
and a key named by some entry holds exactly the four rule lists computed
from `configGet config k`. -/
theorem buildAll_ok {config : Config} (entries : List (String × Value)) :
    ∀ (st st' : RulesState), buildAll config st entries = .ok st' →
    ∀ k : String,
      ((∀ p ∈ entries, lower p.1 ≠ k) →
        st'.classification k = st.classification k ∧
        st'.exclusion k = st.exclusion k ∧
        st'.enrichment k = st.enrichment k ∧
        st'.routing k = st.routing k) ∧
      ((∃ p ∈ entries, lower p.1 = k) →
        ∃ cfg cl ex en ro,
          configGet config k = .ok cfg ∧
          classificationListFor k cfg = .ok cl ∧
          st'.classification k = some cl ∧
          exclusionListFor cfg = .ok ex ∧ st'.exclusion k = some ex ∧
          enrichmentListFor k cfg = .ok en ∧ st'.enrichment k = some en ∧
          routingListFor k cfg = .ok ro ∧ st'.routing k = some ro) := by
  induction entries with
  | nil =>
    intro st st' h k
    simp only [buildAll, Except.ok.injEq] at h
    subst h
    exact ⟨fun _ => ⟨rfl, rfl, rfl, rfl⟩, by simp⟩
  | cons p ps ih =>
    intro st st' h k
    simp only [buildAll] at h
    split at h
    · simp at h
    · next st₁ h₁ =>
      refine ⟨?_, ?_⟩
      · intro hk
        have h1k : k ≠ lower p.1 := fun he => hk p (List.mem_cons_self p ps) he.symm
        have hother := buildRules_ok_other h₁ h1k
        have hih := ((ih st₁ st' h) k).1 (fun q hq => hk q (List.mem_cons_of_mem p hq))
        exact ⟨hih.1.trans hother.1, hih.2.1.trans hother.2.1,
          hih.2.2.1.trans hother.2.2.1, hih.2.2.2.trans hother.2.2.2⟩
      · intro hx
        by_cases hps : ∃ q ∈ ps, lower q.1 = k
        · exact ((ih st₁ st' h) k).2 hps
        · have hpk : lower p.1 = k := by
            obtain ⟨q, hq, hqk⟩ := hx
            rcases List.mem_cons.mp hq with rfl | hq₂
            · exact hqk
            · exact absurd ⟨q, hq₂, hqk⟩ hps
          have hstable := ((ih st₁ st' h) k).1 (fun q hq hqk => hps ⟨q, hq, hqk⟩)
          obtain ⟨cfg, cl, ex, en, ro, hg, hcl, hex, hen, hro, hc, he, hn, hr⟩ :=
            buildRules_ok h₁
          rw [hpk] at hg hcl hen hro hc he hn hr
          refine ⟨cfg, cl, ex, en, ro, hg, hcl, ?_, hex, ?_, hen, ?_, hro, ?_⟩
          · rw [hstable.1, hc]; simp [Dict.insert]
          · rw [hstable.2.1, he]; simp [Dict.insert]
          · rw [hstable.2.2.1, hn]; simp [Dict.insert]
          · rw [hstable.2.2.2, hr]; simp [Dict.insert]

/-- Specialization of `buildAll_ok` to `Rules.__init__`: after a
successful construction, unknown services are absent from all four rule
dictionaries and known services hold exactly the rule lists computed
from their config entry. -/
theorem rulesInit_ok {config : Config} {st : RulesState}
    (h : rulesInit config = .ok st) (k : String) :
    ((∀ p ∈ config, lower p.1 ≠ k) →
      st.classification k = Option.none ∧ st.exclusion k = Option.none ∧
      st.enrichment k = Option.none ∧ st.routing k = Option.none) ∧
    ((∃ p ∈ config, lower p.1 = k) →
      ∃ cfg cl ex en ro,
        configGet config k = .ok cfg ∧
        classificationListFor k cfg = .ok cl ∧ st.classification k = some cl ∧
        exclusionListFor cfg = .ok ex ∧ st.exclusion k = some ex ∧
        enrichmentListFor k cfg = .ok en ∧ st.enrichment k = some en ∧
        routingListFor k cfg = .ok ro ∧ st.routing k = some ro) :=
  buildAll_ok config RulesState.empty st h k

/-! ### Rule store lookups (C6) -/

/-- C6: After a successful compilation, each of the four rule
accessors raises `ServiceNotDefinedError` for every service name never
compiled (no config key lower-cases to the looked-up name), and succeeds
— under any casing of the name, which is lower-cased at lookup time — for
every compiled service. -/
theorem spec_C6 (config : Config) (st : RulesState) (name : String)
    (h : rulesInit config = .ok st) :
    ((∀ p ∈ config, lower p.1 ≠ lower name) →
      getClassificationRules st name
        = .error (.serviceNotDefinedError (lower name)) ∧
      getExclusionRules st name
        = .error (.serviceNotDefinedError (lower name)) ∧
      getEnrichmentRules st name
        = .error (.serviceNotDefinedError (lower name)) ∧
      getRoutingRules st name
        = .error (.serviceNotDefinedError (lower name))) ∧
    ((∃ p ∈ config, lower p.1 = lower name) →
      (∃ l, getClassificationRules st name = .ok l) ∧
      (∃ l, getExclusionRules st name = .ok l) ∧
      (∃ l, getEnrichmentRules st name = .ok l) ∧
      (∃ l, getRoutingRules st name = .ok l)) := by
  have hinv := rulesInit_ok h (lower name)
  constructor
  · intro hnone
    have h0 := hinv.1 hnone
    refine ⟨?_, ?_, ?_, ?_⟩ <;>
      simp [getClassificationRules, getExclusionRules, getEnrichmentRules,
        getRoutingRules, h0.1, h0.2.1, h0.2.2.1, h0.2.2.2]
  · intro hsome
    obtain ⟨cfg, cl, ex, en, ro, hg, hclf, hc, hexf, he, henf, hn, hrof, hr⟩ :=
      hinv.2 hsome
    exact ⟨⟨cl, by simp [getClassificationRules, hc]⟩,
      ⟨ex, by simp [getExclusionRules, he]⟩,
      ⟨en, by simp [getEnrichmentRules, hn]⟩,
      ⟨ro, by simp [getRoutingRules, hr]⟩⟩

/-- A valid single-service configuration used by the lookup witnesses. -/
def c6cfg : Value :=
  .dict [("classification", .dict [("CRITICAL", strList ["down"])]),
         ("routes", .str "chan")]

/-- The configuration tree holding only `c6cfg` under the key `svc`. -/
def c6config : Config := [("svc", c6cfg)]

/-- The rule store compiled from `c6config`. -/
def c6state : RulesState :=
  match rulesInit c6config with
  | .ok st => st
  | .error _ => RulesState.empty

/-- Witness for C6: the uncompiled service `"GHOST"` fails with
`ServiceNotDefinedError` on every accessor, while the compiled service
`svc` is retrievable under the casing `"SVC"`. -/
theorem spec_C6_witness :
    getClassificationRules c6state "GHOST"
      = .error (.serviceNotDefinedError "ghost") ∧
    getRoutingRules c6state "GHOST"
      = .error (.serviceNotDefinedError "ghost") ∧
    (∃ l, getClassificationRules c6state "SVC" = .ok l) ∧
    (∃ l, getRoutingRules c6state "SVC" = .ok l) := by
  have h₁ := (spec_C6 c6config c6state "GHOST" rfl).1 (by decide)
  have h₂ := (spec_C6 c6config c6state "SVC" rfl).2
    ⟨("svc", c6cfg), List.mem_cons_self _ _, by decide⟩
  exact ⟨h₁.1, h₁.2.2.2, h₂.1, h₂.2.2.2⟩

/-! ### Rule set cardinalities (C8) -/

theorem classificationListFor_ok_shape {s : String} {cfg : Value}
    {l : List ClassificationRule} (h : classificationListFor s cfg = .ok l) :
    l = [ClassificationRule.fromCfg cfg] := by
  unfold classificationListFor at h
  split at h
  · cases h
  · cases h
  · simp only [Except.ok.injEq] at h; exact h.symm

theorem exclusionListFor_dict (d : List (String × Value)) :
    exclusionListFor (.dict d)
      = .ok (if d.any (fun q => q.1 == "exclude")
             then [ExclusionRule.fromCfg (.dict d)] else []) := by
  unfold exclusionListFor
  cases h : d.any (fun q => q.1 == "exclude") <;>
    simp [Value.containsKey, h]

/-- C8: After a successful compilation: every stored classification
rule set contains exactly one rule; every stored exclusion rule set is
exactly the list computed from its service's config — for a dict config,
one rule when the `exclude` section is present and empty when it is
absent; and an empty exclusion set never excludes any alert. -/
theorem spec_C8 (config : Config) (st : RulesState) (name : String)
    (h : rulesInit config = .ok st) :
    (∀ cl, st.classification name = some cl → cl.length = 1) ∧
    (∀ ex, st.exclusion name = some ex →
      ∃ cfg, configGet config name = .ok cfg ∧
        exclusionListFor cfg = .ok ex ∧
        (∀ d, cfg = .dict d →
          ex = if d.any (fun q => q.1 == "exclude")
               then [ExclusionRule.fromCfg cfg] else [])) ∧
    (∀ x : Alert, evalExclusionRules [] x = .ok false) := by
  refine ⟨?_, ?_, fun _ => rfl⟩
  · intro cl hcl
    by_cases hx : ∃ p ∈ config, lower p.1 = name
    · obtain ⟨cfg, cl', ex, en, ro, hg, hclf, hc, _, _, _, _, _, _⟩ :=
        (rulesInit_ok h name).2 hx
      rw [hc] at hcl
      simp only [Option.some.injEq] at hcl
      subst hcl
      rw [classificationListFor_ok_shape hclf]
      rfl
    · have h0 := (rulesInit_ok h name).1 (fun p hp hpk => hx ⟨p, hp, hpk⟩)
      rw [h0.1] at hcl
      cases hcl
  · intro ex hex
    by_cases hx : ∃ p ∈ config, lower p.1 = name
    · obtain ⟨cfg, cl, ex', en, ro, hg, _, _, hexf, he, _, _, _, _⟩ :=
        (rulesInit_ok h name).2 hx
      rw [he] at hex
      simp only [Option.some.injEq] at hex
      subst hex
      refine ⟨cfg, hg, hexf, ?_⟩
      intro d hd
      subst hd
      rw [exclusionListFor_dict] at hexf
      simp only [Except.ok.injEq] at hexf
      exact hexf.symm
    · have h0 := (rulesInit_ok h name).1 (fun p hp hpk => hx ⟨p, hp, hpk⟩)
      rw [h0.2.1] at hex
      cases hex

/-- A service config with an `exclude` section. -/
def c8cfgA : Value :=
  .dict [("classification", .dict []),
         ("exclude", strList ["heartbeat"]),
         ("routes", .str "chan")]

/-- A service config without an `exclude` section. -/
def c8cfgB : Value :=
  .dict [("classification", .dict []), ("routes", .str "chan")]

/-- A configuration tree with one service with and one without
`exclude`. -/
def c8config : Config := [("a", c8cfgA), ("b", c8cfgB)]

/-- The rule store compiled from `c8config`. -/
def c8state : RulesState :=
  match rulesInit c8config with
  | .ok st => st
  | .error _ => RulesState.empty

/-- Witness for C8: in the compiled `c8config`, service `a` has a
one-rule classification set and a one-rule exclusion set, service `b`
(no `exclude` section) has an empty exclusion set, and the empty
exclusion set does not exclude the alert `"heartbeat ok"`. -/
theorem spec_C8_witness :
    [ClassificationRule.fromCfg c8cfgA].length = 1 ∧
    (∃ cfg, configGet c8config "a" = .ok cfg ∧
      exclusionListFor cfg = .ok [ExclusionRule.fromCfg c8cfgA] ∧
      (∀ d, cfg = .dict d →
        [ExclusionRule.fromCfg c8cfgA]
          = if d.any (fun q => q.1 == "exclude")
            then [ExclusionRule.fromCfg cfg] else [])) ∧
    (∃ cfg, configGet c8config "b" = .ok cfg ∧
      exclusionListFor cfg = .ok [] ∧
      (∀ d, cfg = .dict d →
        ([] : List ExclusionRule)
          = if d.any (fun q => q.1 == "exclude")
            then [ExclusionRule.fromCfg cfg] else [])) ∧
    evalExclusionRules [] ⟨"heartbeat ok"⟩ = .ok false := by
  refine ⟨(spec_C8 c8config c8state "a" rfl).1 [ClassificationRule.fromCfg c8cfgA] rfl,
    (spec_C8 c8config c8state "a" rfl).2.1 [ExclusionRule.fromCfg c8cfgA] rfl,
    (spec_C8 c8config c8state "b" rfl).2.1 [] rfl,
    (spec_C8 c8config c8state "b" rfl).2.2 ⟨"heartbeat ok"⟩⟩

/-! ### Rebuild overwrites wholesale (C9) -/

/-- C9: Compiling a service name a second time overwrites its entry
wholesale: after the second `_build_rules` call, the rules retrievable
from all four accessors are exactly the lists computed from the second
configuration, independent of the first build's configuration and rules
(no merge; last write wins). -/
theorem spec_C9 (c₁ c₂ : Config) (st₀ st₁ st₂ : RulesState) (name : String)
    (h₁ : buildRules c₁ st₀ name = .ok st₁)
    (h₂ : buildRules c₂ st₁ name = .ok st₂) :
    ∃ cfg cl ex en ro,
      configGet c₂ (lower name) = .ok cfg ∧
      classificationListFor (lower name) cfg = .ok cl ∧
      getClassificationRules st₂ name = .ok cl ∧
      exclusionListFor cfg = .ok ex ∧
      getExclusionRules st₂ name = .ok ex ∧
      enrichmentListFor (lower name) cfg = .ok en ∧
      getEnrichmentRules st₂ name = .ok en ∧
      routingListFor (lower name) cfg = .ok ro ∧
      getRoutingRules st₂ name = .ok ro := by
  obtain ⟨cfg, cl, ex, en, ro, hg, hcl, hex, hen, hro, hc, he, hn, hr⟩ :=
    buildRules_ok h₂
  refine ⟨cfg, cl, ex, en, ro, hg, hcl, ?_, hex, ?_, hen, ?_, hro, ?_⟩ <;>
    simp [getClassificationRules, getExclusionRules, getEnrichmentRules,
      getRoutingRules, hc, he, hn, hr, Dict.insert]

/-- First configuration for the rebuild witness: `exclude` present,
routes to `old`. -/
def c9cfg1 : Value :=
  .dict [("classification", .dict [("CRITICAL", strList ["a"])]),
         ("exclude", strList ["x"]),
         ("routes", .str "old")]

/-- Second configuration for the rebuild witness: no `exclude`, routes
to `new`. -/
def c9cfg2 : Value :=
  .dict [("classification", .dict [("WARNING", strList ["b"])]),
         ("routes", .str "new")]

/-- Config tree for the first build of service `svc`. -/
def c9config1 : Config := [("svc", c9cfg1)]

/-- Config tree for the second build of service `svc`. -/
def c9config2 : Config := [("svc", c9cfg2)]

/-- The state after the first build of `svc`. -/
def c9state1 : RulesState :=
  match buildRules c9config1 RulesState.empty "svc" with
  | .ok st => st
  | .error _ => RulesState.empty

/-- The state after rebuilding `svc` from the second configuration. -/
def c9state2 : RulesState :=
  match buildRules c9config2 c9state1 "svc" with
  | .ok st => st
  | .error _ => RulesState.empty

/-- Witness for C9: after rebuilding `svc` from `c9cfg2`, the accessors
return the second configuration's rules only — routing now targets
`new` and the first build's exclusion rule is gone. -/
theorem spec_C9_witness :
    (∃ cfg cl ex en ro,
      configGet c9config2 (lower "svc") = .ok cfg ∧
      classificationListFor (lower "svc") cfg = .ok cl ∧
      getClassificationRules c9state2 "svc" = .ok cl ∧
      exclusionListFor cfg = .ok ex ∧
      getExclusionRules c9state2 "svc" = .ok ex ∧
      enrichmentListFor (lower "svc") cfg = .ok en ∧
      getEnrichmentRules c9state2 "svc" = .ok en ∧
      routingListFor (lower "svc") cfg = .ok ro ∧
      getRoutingRules c9state2 "svc" = .ok ro) ∧
    getRoutingRules c9state2 "svc" = .ok [RoutingRule.uncond c9cfg2] ∧
    getExclusionRules c9state2 "svc" = .ok [] :=
  ⟨spec_C9 c9config1 c9config2 RulesState.empty c9state1 c9state2 "svc"
    rfl rfl, rfl, rfl⟩

/-! ### Missing required sections abort compilation (C3) -/

theorem classificationListFor_dict_missing {s : String}
    {d : List (String × Value)}
    (h : d.any (fun q => q.1 == "classification") = false) :
    classificationListFor s (.dict d)
      = .error (.configurationError
          ("classification rules not defined for " ++ s)) := by
  unfold classificationListFor
  simp [Value.containsKey, h]

theorem routingListFor_dict_missing {s : String} {d : List (String × Value)}
    (h : d.any (fun q => q.1 == "routes") = false) :
    routingListFor s (.dict d)
      = .error (.configurationError ("routes not defined for " ++ s)) := by
  unfold routingListFor
  simp [Value.containsKey, h]

theorem classificationListFor_dict_err {s : String}
    {d : List (String × Value)} {e : Err}
    (h : classificationListFor s (.dict d) = .error e) :
    ∃ m, e = .configurationError m := by
  unfold classificationListFor at h
  simp only [Value.containsKey] at h
  cases hb : d.any (fun q => q.1 == "classification") <;> rw [hb] at h
  · simp only [Except.error.injEq] at h
    exact ⟨_, h.symm⟩
  · cases h

theorem enrichmentListFor_dict_err {s : String} {d : List (String × Value)}
    {e : Err} (h : enrichmentListFor s (.dict d) = .error e) :
    ∃ m, e = .configurationError m := by
  unfold enrichmentListFor at h
  simp only [Value.containsKey] at h
  cases hb : d.any (fun q => q.1 == "enrichments") <;> rw [hb] at h
  · cases h
  · have hs : (d.find? (fun q => q.1 == "enrichments")).isSome :=
      List.find?_isSome.mpr (List.any_eq_true.mp hb)
    obtain ⟨q, hq⟩ := Option.isSome_iff_exists.mp hs
    simp only [Value.getItem, hq] at h
    cases hsnd : q.2 <;> rw [hsnd] at h <;>
      first
        | exact Except.noConfusion h
        | (cases h; exact ⟨_, rfl⟩)

theorem routingListFor_dict_err {s : String} {d : List (String × Value)}
    {e : Err} (h : routingListFor s (.dict d) = .error e) :
    ∃ m, e = .configurationError m := by
  unfold routingListFor at h
  simp only [Value.containsKey] at h
  cases hb : d.any (fun q => q.1 == "routes") <;> rw [hb] at h
  · simp only [Except.error.injEq] at h
    exact ⟨_, h.symm⟩
  · have hs : (d.find? (fun q => q.1 == "routes")).isSome :=
      List.find?_isSome.mpr (List.any_eq_true.mp hb)
    obtain ⟨q, hq⟩ := Option.isSome_iff_exists.mp hs
    simp only [Value.getItem, hq] at h
    cases hsnd : q.2 <;> rw [hsnd] at h <;>
      first
        | exact Except.noConfusion h
        | (cases h; exact ⟨_, rfl⟩)

theorem buildClassificationRules_err {config : Config} {st : RulesState}
    {service : String} {e : Err}
    (h : buildClassificationRules config st service = .error e) :
    configGet config (lower service) = .error e ∨
    ∃ cfg, configGet config (lower service) = .ok cfg ∧
      classificationListFor (lower service) cfg = .error e := by
  unfold buildClassificationRules at h
  split at h
  · next e₀ heq =>
    simp only [Except.error.injEq] at h
    subst h
    exact Or.inl heq
  · next cfg heq =>
    split at h
    · next e₀ heq₂ =>
      simp only [Except.error.injEq] at h
      subst h
      exact Or.inr ⟨cfg, heq, heq₂⟩
    · cases h

theorem buildExclusionRules_err {config : Config} {st : RulesState}
    {service : String} {e : Err}
    (h : buildExclusionRules config st service = .error e) :
    configGet config (lower service) = .error e ∨
    ∃ cfg, configGet config (lower service) = .ok cfg ∧
      exclusionListFor cfg = .error e := by
  unfold buildExclusionRules at h
  split at h
  · next e₀ heq =>
    simp only [Except.error.injEq] at h
    subst h
    exact Or.inl heq
  · next cfg heq =>
    split at h
    · next e₀ heq₂ =>
      simp only [Except.error.injEq] at h
      subst h
      exact Or.inr ⟨cfg, heq, heq₂⟩
    · cases h

theorem buildEnrichmentRules_err {config : Config} {st : RulesState}
    {service : String} {e : Err}
    (h : buildEnrichmentRules config st service = .error e) :
    configGet config (lower service) = .error e ∨
    ∃ cfg, configGet config (lower service) = .ok cfg ∧
      enrichmentListFor (lower service) cfg = .error e := by
  unfold buildEnrichmentRules at h
  split at h
  · next e₀ heq =>
    simp only [Except.error.injEq] at h
    subst h
    exact Or.inl heq
  · next cfg heq =>
    split at h
    · next e₀ heq₂ =>
      simp only [Except.error.injEq] at h
      subst h
      exact Or.inr ⟨cfg, heq, heq₂⟩
    · cases h

theorem buildRoutingRules_err {config : Config} {st : RulesState}
    {service : String} {e : Err}
    (h : buildRoutingRules config st service = .error e) :
    configGet config (lower service) = .error e ∨
    ∃ cfg, configGet config (lower service) = .ok cfg ∧
      routingListFor (lower service) cfg = .error e := by
  unfold buildRoutingRules at h
  split at h
  · next e₀ heq =>
    simp only [Except.error.injEq] at h
    subst h
    exact Or.inl heq
  · next cfg heq =>
    split at h
    · next e₀ heq₂ =>
      simp only [Except.error.injEq] at h
      subst h
      exact Or.inr ⟨cfg, heq, heq₂⟩
    · cases h

/-- When a service's config entry resolves to a dict, any `_build_rules`
failure for it is a `ConfigurationError`. -/
theorem buildRules_dict_err {config : Config} {st : RulesState}
    {service : String} {d : List (String × Value)} {e : Err}
    (hg : configGet config (lower service) = .ok (.dict d))
    (h : buildRules config st service = .error e) :
    ∃ m, e = .configurationError m := by
  have resolve :
      ∀ cfg : Value, configGet config (lower service) = .ok cfg →
        cfg = .dict d := by
    intro cfg hcfg
    rw [hg] at hcfg
    simp only [Except.ok.injEq] at hcfg
    exact hcfg.symm
  unfold buildRules at h
  split at h
  · next e₀ heq =>
    simp only [Except.error.injEq] at h
    subst h
    rcases buildClassificationRules_err heq with hc | ⟨cfg, hcfg, hl⟩
    · rw [hg] at hc; cases hc
    · rw [resolve cfg hcfg] at hl
      exact classificationListFor_dict_err hl
  · next st₁ h₁ =>
    split at h
    · next e₀ heq =>
      simp only [Except.error.injEq] at h
      subst h
      rcases buildExclusionRules_err heq with hc | ⟨cfg, hcfg, hl⟩
      · rw [hg] at hc; cases hc
      · rw [resolve cfg hcfg] at hl
        rw [exclusionListFor_dict] at hl
        cases hl
    · next st₂ h₂ =>
      split at h
      · next e₀ heq =>
        simp only [Except.error.injEq] at h
        subst h
        rcases buildEnrichmentRules_err heq with hc | ⟨cfg, hcfg, hl⟩
        · rw [hg] at hc; cases hc
        · rw [resolve cfg hcfg] at hl
          exact enrichmentListFor_dict_err hl
      · next st₃ h₃ =>
        rcases buildRoutingRules_err h with hc | ⟨cfg, hcfg, hl⟩
        · rw [hg] at hc; cases hc
        · rw [resolve cfg hcfg] at hl
          exact routingListFor_dict_err hl

/-- When a service's config entry resolves to a dict that lacks the
`classification` or the `routes` section, `_build_rules` cannot
succeed for it. -/
theorem buildRules_dict_missing {config : Config} {st : RulesState}
    {service : String} {d : List (String × Value)}
    (hg : configGet config (lower service) = .ok (.dict d))
    (hmiss : d.any (fun q => q.1 == "classification") = false ∨
      d.any (fun q => q.1 == "routes") = false) :
    ∀ st', buildRules config st service ≠ .ok st' := by
  intro st' hok
  obtain ⟨cfg, cl, ex, en, ro, hg', hcl, _, _, hro, _, _, _, _⟩ :=
    buildRules_ok hok
  rw [hg] at hg'
  simp only [Except.ok.injEq] at hg'
  subst hg'
  rcases hmiss with hm | hm
  · rw [classificationListFor_dict_missing hm] at hcl; cases hcl
  · rw [routingListFor_dict_missing hm] at hro; cases hro

/-- The constructor loop fails with a `ConfigurationError` whenever every
entry's config resolves to a dict and some entry's dict lacks a required
section. -/
theorem buildAll_err {config : Config} :
    ∀ entries : List (String × Value),
    (∀ p ∈ entries, ∃ d, configGet config (lower p.1) = .ok (.dict d)) →
    (∃ p ∈ entries, ∃ d, configGet config (lower p.1) = .ok (.dict d) ∧
      (d.any (fun q => q.1 == "classification") = false ∨
       d.any (fun q => q.1 == "routes") = false)) →
    ∀ st, ∃ m, buildAll config st entries
      = .error (.configurationError m) := by
  intro entries
  induction entries with
  | nil => intro _ htarget st; simp at htarget
  | cons p ps ih =>
    intro hall htarget st
    obtain ⟨d, hd⟩ := hall p (List.mem_cons_self p ps)
    simp only [buildAll]
    cases hbr : buildRules config st p.1 with
    | error e =>
      obtain ⟨m, hm⟩ := buildRules_dict_err hd hbr
      exact ⟨m, by rw [hm]⟩
    | ok st₁ =>
      rcases htarget with ⟨q, hq, dq, hdq, hmiss⟩
      rcases List.mem_cons.mp hq with rfl | hq₂
      · rw [hdq] at hd
        simp only [Except.ok.injEq, Value.dict.injEq] at hd
        subst hd
        exact absurd hbr (buildRules_dict_missing hdq hmiss st₁)
      · obtain ⟨m, hm⟩ := ih
          (fun r hr => hall r (List.mem_cons_of_mem p hr))
          ⟨q, hq₂, dq, hdq, hmiss⟩ st₁
        exact ⟨m, hm⟩

/-- C3: For every configuration tree (whose service entries resolve,
lower-cased, to dict configs) containing a service config that lacks the
`classification` section or lacks the `routes` section, construction of
the `Rules` object fails with `ConfigurationError`; in particular no rule
store exists at all, so no accessor can ever return a (partially built)
rule set for the offending service. -/
theorem spec_C3 (config : Config)
    (hall : ∀ p ∈ config, ∃ d, configGet config (lower p.1) = .ok (.dict d))
    (htarget : ∃ p ∈ config, ∃ d,
      configGet config (lower p.1) = .ok (.dict d) ∧
      (d.any (fun q => q.1 == "classification") = false ∨
       d.any (fun q => q.1 == "routes") = false)) :
    (∃ m, rulesInit config = .error (.configurationError m)) ∧
    ∀ st, rulesInit config ≠ .ok st := by
  obtain ⟨m, hm⟩ := buildAll_err config hall htarget RulesState.empty
  have hr : rulesInit config = .error (.configurationError m) := hm
  exact ⟨⟨m, hr⟩, fun st hst => by rw [hr] at hst; cases hst⟩

/-- A valid service config for the C3 witness. -/
def c3good : Value :=
  .dict [("classification", .dict []), ("routes", .str "chan")]

/-- A service config lacking the required `routes` section. -/
def c3bad : Value := .dict [("classification", .dict [])]

/-- A configuration tree whose second service lacks `routes`. -/
def c3config : Config := [("good", c3good), ("bad", c3bad)]

/-- Witness for C3: compiling `c3config` fails with a
`ConfigurationError` and never yields a rule store. -/
theorem spec_C3_witness :
    (∃ m, rulesInit c3config = .error (.configurationError m)) ∧
    ∀ st, rulesInit c3config ≠ .ok st :=
  spec_C3 c3config
    (by
      intro p hp
      rcases List.mem_cons.mp hp with rfl | hp₂
      · exact ⟨_, rfl⟩
      · rcases List.mem_cons.mp hp₂ with rfl | hp₃
        · exact ⟨_, rfl⟩
        · cases hp₃)
    ⟨("bad", c3bad), List.mem_cons_of_mem _ (List.mem_cons_self _ _),
      [("classification", .dict [])], rfl, Or.inr rfl⟩

end Klaxer
